import Mathlib

/-!
Verification of `add_copyright.py`, a batch utility that prepends a
copyright header comment to source files lacking one.

The embedding models Python strings (file contents, paths, messages) as
`List Char`: Python strings are sequences of unicode code points, and
the script reads and writes whole files as utf-8 text.  File-system
effects are made explicit: the single-file processor receives the file's
content together with an `IOBehavior` oracle describing whether the read
and the write succeed, and returns the effect it had on the file.
Directory trees are an inductive type, and `os.walk` with the in-place
pruning of `dirs[:]` becomes a structurally recursive walk that does not
descend into excluded directory names.
-/

/-- Python's substring test `needle in hay`: true iff `needle` occurs
contiguously inside `hay`. -/
def containsSub (needle : List Char) : List Char → Bool
  | [] => needle.isPrefixOf []
  | c :: rest => needle.isPrefixOf (c :: rest) || containsSub needle rest

/-- `has_copyright` from the source: whether `'@file'` or `'@copyright'`
occurs in the first 500 characters of the content. -/
def has_copyright (content : List Char) : Bool :=
  containsSub "@file".data (content.take 500) ||
    containsSub "@copyright".data (content.take 500)

/-- Keyword-argument lookup used by the `str.format` model. -/
def lookupField (fields : List (List Char × List Char)) (name : List Char) :
    Option (List Char) :=
  match fields with
  | [] => none
  | (k, v) :: rest => if k = name then some v else lookupField rest name

/-- Worker for the `str.format` model.  The first argument is `none` in
literal mode and `some acc` while scanning a replacement-field name
(accumulated in reverse).  A doubled brace is a literal brace; a field
between braces is replaced by the looked-up value (values are
substituted verbatim, never re-scanned); stray braces and unknown field
names raise, modelled by `Except.error`. -/
def pyFormatAux (fields : List (List Char × List Char)) :
    Option (List Char) → List Char → Except (List Char) (List Char)
  | none, [] => Except.ok []
  | some _, [] => Except.error "Single brace encountered in format string".data
  | none, '{' :: '{' :: rest =>
      (pyFormatAux fields none rest).map (fun s => '{' :: s)
  | none, '}' :: '}' :: rest =>
      (pyFormatAux fields none rest).map (fun s => '}' :: s)
  | none, '{' :: rest => pyFormatAux fields (some []) rest
  | none, '}' :: _ =>
      Except.error "Single brace encountered in format string".data
  | none, c :: rest => (pyFormatAux fields none rest).map (fun s => c :: s)
  | some acc, '}' :: rest =>
      match lookupField fields acc.reverse with
      | none => Except.error "KeyError".data
      | some v => (pyFormatAux fields none rest).map (fun s => v ++ s)
  | some acc, c :: rest => pyFormatAux fields (some (c :: acc)) rest

/-- Python `template.format(**fields)` (restricted to the plain named
fields the script uses). -/
def pyFormat (template : List Char) (fields : List (List Char × List Char)) :
    Except (List Char) (List Char) :=
  pyFormatAux fields none template

/-- The `TS_COPYRIGHT` template string of the source, verbatim. -/
def TS_COPYRIGHT : List Char :=
  "/**\n * @file {filename}\n * @description {description}\n * @author Tomda\n * @copyright 版权所有 (c) 2026 UIED技术团队\n * @website https://fsuied.com\n * @license MIT\n * @version 1.0.0\n */\n\n".data

/-- The `CSS_COPYRIGHT` template string of the source, verbatim. -/
def CSS_COPYRIGHT : List Char :=
  "/**\n * @file {filename}\n * @description {description}\n * @author Tomda\n * @copyright 版权所有 (c) 2026 UIED技术团队\n * @website https://fsuied.com\n * @license MIT\n * @version 1.0.0\n */\n\n".data

/-- The characters of the rendered header that precede the file name. -/
def headerPre : List Char := "/**\n * @file ".data

/-- The characters of the rendered header between the file name and the
description. -/
def headerMid : List Char := "\n * @description ".data

/-- The characters of the rendered header after the description. -/
def headerPost : List Char :=
  "\n * @author Tomda\n * @copyright 版权所有 (c) 2026 UIED技术团队\n * @website https://fsuied.com\n * @license MIT\n * @version 1.0.0\n */\n\n".data

/-- `os.path.basename` on a POSIX path: the part after the last slash. -/
def basename (p : List Char) : List Char :=
  (p.reverse.takeWhile (fun c => c ≠ '/')).reverse

/-- Python `p.endswith(suffix)`. -/
def endswith (p suffix : List Char) : Bool :=
  suffix.isSuffixOf p

/-- `os.path.join` on POSIX, for the walk's root plus the relative
components leading to a file. -/
def joinPath (dirs : List (List Char)) (name : List Char) : List Char :=
  List.intercalate "/".data (dirs ++ [name])

/-- Oracle for the two fallible file operations of the processor: `none`
means the operation succeeds, `some e` that it raises with message `e`. -/
structure IOBehavior where
  readError : Option (List Char)
  writeError : Option (List Char)
deriving DecidableEq

/-- What happened to the file on disk. `writeFailed` records that the
write was attempted but raised, leaving the content unspecified. -/
inductive FileEffect where
  | untouched : FileEffect
  | written : List Char → FileEffect
  | writeFailed : FileEffect
deriving DecidableEq

/-- Result of processing one file: the boolean the Python function
returns, the effect on the file, and the lines it prints. -/
structure ProcResult where
  returned : Bool
  effect : FileEffect
  log : List (List Char)
deriving DecidableEq

/-- `add_copyright_to_file` from the source: read the file (may fail),
skip if a header marker is present, otherwise render the template chosen
by the `.css` test on the full path with the file's base name and the
description, and write the header followed by the original content (the
write may fail).  Every failure is caught and yields `returned = false`
with the error logged. -/
def add_copyright_to_file (filepath : List Char) (description : List Char)
    (content : List Char) (io' : IOBehavior) : ProcResult :=
  match io'.readError with
  | some e =>
      ⟨false, FileEffect.untouched,
        ["❌ 处理失败 ".data ++ filepath ++ ": ".data ++ e]⟩
  | none =>
    if has_copyright content then
      ⟨false, FileEffect.untouched,
        ["⏭️  跳过 ".data ++ filepath ++ " (已有版权注释)".data]⟩
    else
      let filename := basename filepath
      let fmt :=
        if endswith filepath ".css".data then
          pyFormat CSS_COPYRIGHT
            [("filename".data, filename), ("description".data, description)]
        else
          pyFormat TS_COPYRIGHT
            [("filename".data, filename), ("description".data, description)]
      match fmt with
      | Except.error e =>
          ⟨false, FileEffect.untouched,
            ["❌ 处理失败 ".data ++ filepath ++ ": ".data ++ e]⟩
      | Except.ok copyright =>
        let new_content := copyright ++ content
        match io'.writeError with
        | some e =>
            ⟨false, FileEffect.writeFailed,
              ["❌ 处理失败 ".data ++ filepath ++ ": ".data ++ e]⟩
        | none =>
            ⟨true, FileEffect.written new_content,
              ["✅ 已添加版权注释: ".data ++ filepath]⟩

/-- The directory names pruned from `dirs[:]` in `process_directory`. -/
def EXCLUDED_DIRS : List (List Char) :=
  ["node_modules".data, "dist".data, "build".data, ".git".data]

mutual

/-- A directory: its regular files (name, content) and its
subdirectories, in listing order. -/
inductive Dir where
  | mk : List (List Char × List Char) → Subdirs → Dir

/-- The subdirectory list of a directory. -/
inductive Subdirs where
  | nil : Subdirs
  | cons : List Char → Dir → Subdirs → Subdirs

end

mutual

/-- The files enumerated by `os.walk` with the script's pruning: the
triples (directory path components, file name, content) of every file
whose path does not pass through an excluded directory name, top-down,
files of a directory before its subdirectories. -/
def walkDir (path : List (List Char)) :
    Dir → List (List (List Char) × List Char × List Char)
  | Dir.mk files subdirs =>
      files.map (fun f => (path, f.1, f.2)) ++ walkSubdirs path subdirs

/-- Walk of a subdirectory list; excluded names are not descended into. -/
def walkSubdirs (path : List (List Char)) :
    Subdirs → List (List (List Char) × List Char × List Char)
  | Subdirs.nil => []
  | Subdirs.cons name d rest =>
      (if EXCLUDED_DIRS.contains name then []
       else walkDir (path ++ [name]) d) ++ walkSubdirs path rest

end

/-- The inner loop of `process_directory` over the files of one
directory: each file whose name ends with an accepted extension is
handed to `add_copyright_to_file`; the pair returned is the directory's
files after the run and the number of files modified.  `io'` gives each
file's I/O behaviour and `corrupt` the (unspecified) content a file is
left with when its write fails. -/
def procFiles (path : List (List Char)) (description : List Char)
    (extensions : List (List Char))
    (io' : List (List Char) → List Char → IOBehavior)
    (corrupt : List (List Char) → List Char → List Char) :
    List (List Char × List Char) → List (List Char × List Char) × Nat
  | [] => ([], 0)
  | (name, content) :: rest =>
      let r := procFiles path description extensions io' corrupt rest
      if extensions.any (fun ext => endswith name ext) then
        let out := add_copyright_to_file (joinPath path name) description
          content (io' path name)
        let newContent :=
          match out.effect with
          | FileEffect.untouched => content
          | FileEffect.written c => c
          | FileEffect.writeFailed => corrupt path name
        ((name, newContent) :: r.1, (if out.returned then 1 else 0) + r.2)
      else
        ((name, content) :: r.1, r.2)

mutual

/-- `process_directory` from the source, as a tree transformer: walks
the tree top-down, prunes excluded subdirectory names, processes the
accepted files of every visited directory, and returns the tree after
the run together with the count of files actually modified. -/
def procDir (path : List (List Char)) (description : List Char)
    (extensions : List (List Char))
    (io' : List (List Char) → List Char → IOBehavior)
    (corrupt : List (List Char) → List Char → List Char) : Dir → Dir × Nat
  | Dir.mk files subdirs =>
      let pf := procFiles path description extensions io' corrupt files
      let ps := procSubdirs path description extensions io' corrupt subdirs
      (Dir.mk pf.1 ps.1, pf.2 + ps.2)

/-- Processing of a subdirectory list: excluded names are left exactly
as they are (never read, never written); the others are processed
recursively. -/
def procSubdirs (path : List (List Char)) (description : List Char)
    (extensions : List (List Char))
    (io' : List (List Char) → List Char → IOBehavior)
    (corrupt : List (List Char) → List Char → List Char) :
    Subdirs → Subdirs × Nat
  | Subdirs.nil => (Subdirs.nil, 0)
  | Subdirs.cons name d rest =>
      let r := procSubdirs path description extensions io' corrupt rest
      if EXCLUDED_DIRS.contains name then
        (Subdirs.cons name d r.1, r.2)
      else
        let pd := procDir (path ++ [name]) description extensions io' corrupt d
        (Subdirs.cons name pd.1 r.1, pd.2 + r.2)

end

/-- `process_directory` proper: invoked by `main` with the root
directory path string; the walk starts at that root. -/
def process_directory (directory : List Char) (description : List Char)
    (extensions : List (List Char))
    (io' : List (List Char) → List Char → IOBehavior)
    (corrupt : List (List Char) → List Char → List Char) (tree : Dir) :
    Dir × Nat :=
  procDir [directory] description extensions io' corrupt tree

theorem containsSub_iff (n : List Char) :
    ∀ h : List Char, containsSub n h = true ↔ n <:+: h := by
  intro h
  induction h with
  | nil => simp [containsSub, List.isPrefixOf_iff_prefix]
  | cons c r ih =>
      simp [containsSub, List.isPrefixOf_iff_prefix, Bool.or_eq_true, ih,
        List.infix_cons_iff]

/-- The two template constants of the source are character-identical. -/
theorem CSS_eq_TS : CSS_COPYRIGHT = TS_COPYRIGHT := rfl

set_option maxRecDepth 4000 in
/-- Rendering the generic template: `format` never raises, whatever the
file name and the description contain, and the substitution is verbatim. -/
theorem pyFormat_TS (fn d : List Char) :
    pyFormat TS_COPYRIGHT [("filename".data, fn), ("description".data, d)] =
      Except.ok (headerPre ++ (fn ++ (headerMid ++ (d ++ headerPost)))) := by rfl

/-- Any content beginning with the rendered header's first characters is
recognised by the detector. -/
theorem has_copyright_headerPre (l : List Char) :
    has_copyright (headerPre ++ l) = true := by
  have h1 : containsSub "@file".data ((headerPre ++ l).take 500) = true := by
    rw [containsSub_iff]
    rw [List.take_append_eq_append_take]
    have h2 : headerPre.take 500 = headerPre := List.take_of_length_le (by decide)
    rw [h2]
    exact List.IsInfix.trans ((containsSub_iff _ headerPre).mp (by decide))
      (List.IsPrefix.isInfix (List.prefix_append headerPre _))
  simp [has_copyright, h1]

set_option maxRecDepth 4000 in
/-- Successful processing of a marker-free file: the exact result. -/
theorem add_success (filepath description content : List Char)
    (h : has_copyright content = false) :
    add_copyright_to_file filepath description content ⟨none, none⟩ =
      ⟨true,
        FileEffect.written (headerPre ++ (basename filepath ++
          (headerMid ++ (description ++ (headerPost ++ content))))),
        ["✅ 已添加版权注释: ".data ++ filepath]⟩ := by
  rw [add_copyright_to_file]
  simp only [h, Bool.false_eq_true, if_false, CSS_eq_TS, ite_self]
  rw [pyFormat_TS (basename filepath) description]
  simp only [List.append_assoc]

/-- Processing a file that already holds a marker: the exact result. -/
theorem add_skip (filepath description content : List Char)
    (w : Option (List Char)) (h : has_copyright content = true) :
    add_copyright_to_file filepath description content ⟨none, w⟩ =
      ⟨false, FileEffect.untouched,
        ["⏭️  跳过 ".data ++ filepath ++ " (已有版权注释)".data]⟩ := by
  rw [add_copyright_to_file]
  simp only [h, if_true]

/-- A failing read: caught, logged with the path and the error, file
untouched, `False` returned. -/
theorem add_readFail (filepath description content e : List Char)
    (w : Option (List Char)) :
    add_copyright_to_file filepath description content ⟨some e, w⟩ =
      ⟨false, FileEffect.untouched,
        ["❌ 处理失败 ".data ++ filepath ++ ": ".data ++ e]⟩ := by
  rw [add_copyright_to_file]

set_option maxRecDepth 4000 in
/-- A failing write on a marker-free file: caught, logged, `False`
returned. -/
theorem add_writeFail (filepath description content e : List Char)
    (h : has_copyright content = false) :
    add_copyright_to_file filepath description content ⟨none, some e⟩ =
      ⟨false, FileEffect.writeFailed,
        ["❌ 处理失败 ".data ++ filepath ++ ": ".data ++ e]⟩ := by
  rw [add_copyright_to_file]
  simp only [h, Bool.false_eq_true, if_false, CSS_eq_TS, ite_self]
  rw [pyFormat_TS (basename filepath) description]

mutual

theorem walkDir_path_free (path : List (List Char)) (t : Dir) :
    ∀ f ∈ walkDir path t, ∃ extra, f.1 = path ++ extra ∧
      ∀ x ∈ extra, EXCLUDED_DIRS.contains x = false := by
  match t with
  | Dir.mk files subdirs =>
    intro f hf
    rw [walkDir] at hf
    rcases List.mem_append.mp hf with hmem | hmem
    · rcases List.mem_map.mp hmem with ⟨g, hg, rfl⟩
      exact ⟨[], by simp, by simp⟩
    · exact walkSubdirs_path_free path subdirs f hmem

theorem walkSubdirs_path_free (path : List (List Char)) (s : Subdirs) :
    ∀ f ∈ walkSubdirs path s, ∃ extra, f.1 = path ++ extra ∧
      ∀ x ∈ extra, EXCLUDED_DIRS.contains x = false := by
  match s with
  | Subdirs.nil =>
    intro f hf
    rw [walkSubdirs] at hf
    exact absurd hf (List.not_mem_nil f)
  | Subdirs.cons name d rest =>
    intro f hf
    rw [walkSubdirs] at hf
    rcases List.mem_append.mp hf with hmem | hmem
    · by_cases hex : EXCLUDED_DIRS.contains name = true
      · rw [if_pos hex] at hmem
        exact absurd hmem (List.not_mem_nil f)
      · rw [if_neg hex] at hmem
        rcases walkDir_path_free (path ++ [name]) d f hmem with ⟨extra, h1, h2⟩
        refine ⟨name :: extra, ?_, ?_⟩
        · rw [h1, List.append_assoc, List.singleton_append]
        · intro x hx
          rcases List.mem_cons.mp hx with rfl | hx
          · exact Bool.eq_false_iff.mpr hex
          · exact h2 x hx
    · exact walkSubdirs_path_free path rest f hmem

end
theorem procFiles_count (path : List (List Char)) (d : List Char)
    (exts : List (List Char))
    (io' : List (List Char) → List Char → IOBehavior)
    (cor : List (List Char) → List Char → List Char)
    (fs : List (List Char × List Char)) :
    (procFiles path d exts io' cor fs).2 =
      fs.countP (fun f => exts.any (fun e => endswith f.1 e) &&
        (add_copyright_to_file (joinPath path f.1) d f.2 (io' path f.1)).returned) := by
  induction fs with
  | nil => rfl
  | cons f rest ih =>
    match f with
    | (name, content) =>
      rw [procFiles, List.countP_cons]
      by_cases hm : exts.any (fun e => endswith name e) = true
      · simp only [hm, if_true, ih, Bool.true_and]
        cases hr : (add_copyright_to_file (joinPath path name) d content (io' path name)).returned
        · simp [hr]
        · simp [hr, Nat.add_comm]
      · simp only [hm, if_false, ih, Bool.false_and]
        simp [Bool.eq_false_iff.mpr hm]

mutual

theorem procDir_count (path : List (List Char)) (d : List Char)
    (exts : List (List Char))
    (io' : List (List Char) → List Char → IOBehavior)
    (cor : List (List Char) → List Char → List Char) (t : Dir) :
    (procDir path d exts io' cor t).2 =
      (walkDir path t).countP (fun f => exts.any (fun e => endswith f.2.1 e) &&
        (add_copyright_to_file (joinPath f.1 f.2.1) d f.2.2 (io' f.1 f.2.1)).returned) := by
  match t with
  | Dir.mk files subdirs =>
    rw [procDir, walkDir, List.countP_append]
    show (procFiles path d exts io' cor files).2 +
        (procSubdirs path d exts io' cor subdirs).2 = _
    rw [procFiles_count, procSubdirs_count, List.countP_map]
    rfl

theorem procSubdirs_count (path : List (List Char)) (d : List Char)
    (exts : List (List Char))
    (io' : List (List Char) → List Char → IOBehavior)
    (cor : List (List Char) → List Char → List Char) (s : Subdirs) :
    (procSubdirs path d exts io' cor s).2 =
      (walkSubdirs path s).countP (fun f => exts.any (fun e => endswith f.2.1 e) &&
        (add_copyright_to_file (joinPath f.1 f.2.1) d f.2.2 (io' f.1 f.2.1)).returned) := by
  match s with
  | Subdirs.nil => rfl
  | Subdirs.cons name d0 rest =>
    rw [procSubdirs, walkSubdirs, List.countP_append]
    by_cases hex : EXCLUDED_DIRS.contains name = true
    · rw [if_pos hex, if_pos hex]
      show (procSubdirs path d exts io' cor rest).2 = _
      rw [procSubdirs_count]
      simp
    · rw [if_neg hex, if_neg hex]
      show (procDir (path ++ [name]) d exts io' cor d0).2 +
          (procSubdirs path d exts io' cor rest).2 = _
      rw [procDir_count, procSubdirs_count]

end
theorem procFiles_twice (path : List (List Char)) (d : List Char)
    (exts : List (List Char))
    (io1 io2 : List (List Char) → List Char → IOBehavior)
    (cor1 cor2 : List (List Char) → List Char → List Char)
    (h1 : ∀ p n, io1 p n = ⟨none, none⟩) (h2 : ∀ p n, io2 p n = ⟨none, none⟩)
    (fs : List (List Char × List Char)) :
    (procFiles path d exts io2 cor2 (procFiles path d exts io1 cor1 fs).1).2 = 0 := by
  induction fs with
  | nil => rfl
  | cons f rest ih =>
    match f with
    | (name, content) =>
      by_cases hm : exts.any (fun e => endswith name e) = true
      · by_cases hc : has_copyright content = true
        · have e1 : (procFiles path d exts io1 cor1 ((name, content) :: rest)).1 =
              (name, content) :: (procFiles path d exts io1 cor1 rest).1 := by
            rw [procFiles, if_pos hm, h1, add_skip _ _ _ _ hc]
          rw [e1, procFiles, if_pos hm, h2, add_skip _ _ _ _ hc]
          simpa using ih
        · have hc' : has_copyright content = false := Bool.eq_false_iff.mpr hc
          have e1 : (procFiles path d exts io1 cor1 ((name, content) :: rest)).1 =
              (name, headerPre ++ (basename (joinPath path name) ++
                (headerMid ++ (d ++ (headerPost ++ content))))) ::
                (procFiles path d exts io1 cor1 rest).1 := by
            rw [procFiles, if_pos hm, h1, add_success _ _ _ hc']
          rw [e1, procFiles, if_pos hm, h2,
            add_skip _ _ _ _ (has_copyright_headerPre _)]
          simpa using ih
      · have e1 : (procFiles path d exts io1 cor1 ((name, content) :: rest)).1 =
            (name, content) :: (procFiles path d exts io1 cor1 rest).1 := by
          rw [procFiles, if_neg hm]
        rw [e1, procFiles, if_neg hm]
        simpa using ih

mutual

theorem procDir_twice (path : List (List Char)) (d : List Char)
    (exts : List (List Char))
    (io1 io2 : List (List Char) → List Char → IOBehavior)
    (cor1 cor2 : List (List Char) → List Char → List Char)
    (h1 : ∀ p n, io1 p n = ⟨none, none⟩) (h2 : ∀ p n, io2 p n = ⟨none, none⟩)
    (t : Dir) :
    (procDir path d exts io2 cor2 (procDir path d exts io1 cor1 t).1).2 = 0 := by
  match t with
  | Dir.mk files subdirs =>
    rw [procDir]
    show (procDir path d exts io2 cor2
      (Dir.mk (procFiles path d exts io1 cor1 files).1
        (procSubdirs path d exts io1 cor1 subdirs).1)).2 = 0
    rw [procDir]
    show (procFiles path d exts io2 cor2 (procFiles path d exts io1 cor1 files).1).2 +
        (procSubdirs path d exts io2 cor2 (procSubdirs path d exts io1 cor1 subdirs).1).2 = 0
    rw [procFiles_twice path d exts io1 io2 cor1 cor2 h1 h2 files,
      procSubdirs_twice path d exts io1 io2 cor1 cor2 h1 h2 subdirs]

theorem procSubdirs_twice (path : List (List Char)) (d : List Char)
    (exts : List (List Char))
    (io1 io2 : List (List Char) → List Char → IOBehavior)
    (cor1 cor2 : List (List Char) → List Char → List Char)
    (h1 : ∀ p n, io1 p n = ⟨none, none⟩) (h2 : ∀ p n, io2 p n = ⟨none, none⟩)
    (s : Subdirs) :
    (procSubdirs path d exts io2 cor2 (procSubdirs path d exts io1 cor1 s).1).2 = 0 := by
  match s with
  | Subdirs.nil => rfl
  | Subdirs.cons name d0 rest =>
    by_cases hex : EXCLUDED_DIRS.contains name = true
    · have e1 : (procSubdirs path d exts io1 cor1 (Subdirs.cons name d0 rest)).1 =
          Subdirs.cons name d0 (procSubdirs path d exts io1 cor1 rest).1 := by
        rw [procSubdirs, if_pos hex]
      rw [e1, procSubdirs, if_pos hex]
      exact procSubdirs_twice path d exts io1 io2 cor1 cor2 h1 h2 rest
    · have e1 : (procSubdirs path d exts io1 cor1 (Subdirs.cons name d0 rest)).1 =
          Subdirs.cons name (procDir (path ++ [name]) d exts io1 cor1 d0).1
            (procSubdirs path d exts io1 cor1 rest).1 := by
        rw [procSubdirs, if_neg hex]
      rw [e1, procSubdirs, if_neg hex]
      show (procDir (path ++ [name]) d exts io2 cor2
          (procDir (path ++ [name]) d exts io1 cor1 d0).1).2 +
        (procSubdirs path d exts io2 cor2 (procSubdirs path d exts io1 cor1 rest).1).2 = 0
      rw [procDir_twice (path ++ [name]) d exts io1 io2 cor1 cor2 h1 h2 d0,
        procSubdirs_twice path d exts io1 io2 cor1 cor2 h1 h2 rest]

end

/-- C1: for every file whose content lacks the header marker in its
first 500 characters, a successful run of `add_copyright_to_file`
rewrites the file so that its new content equals the rendered header
template (with the file's base name and the given description filled
in) followed immediately by the original content, byte-for-byte
unchanged on the original portion, and the function returns True. -/
theorem add_copyright_prepends_rendered_header
    (filepath description content rendered : List Char)
    (h : has_copyright content = false)
    (hr : pyFormat TS_COPYRIGHT
      [("filename".data, basename filepath), ("description".data, description)] =
      Except.ok rendered) :
    add_copyright_to_file filepath description content ⟨none, none⟩ =
      ⟨true, FileEffect.written (rendered ++ content),
        ["✅ 已添加版权注释: ".data ++ filepath]⟩ := by
  rw [pyFormat_TS] at hr
  cases hr
  rw [add_success filepath description content h]
  simp [List.append_assoc]

set_option maxRecDepth 100000 in
/-- Witness for C1 at the spec's own scenario: `widget.tsx` with content
`export const x = 1;`. -/
theorem add_copyright_prepends_rendered_header_witness :
    add_copyright_to_file "widget.tsx".data "前端用户界面组件".data
        "export const x = 1;".data ⟨none, none⟩ =
      ⟨true, FileEffect.written ((headerPre ++ ("widget.tsx".data ++
          (headerMid ++ ("前端用户界面组件".data ++ headerPost)))) ++
          "export const x = 1;".data),
        ["✅ 已添加版权注释: ".data ++ "widget.tsx".data]⟩ :=
  add_copyright_prepends_rendered_header "widget.tsx".data
    "前端用户界面组件".data "export const x = 1;".data
    (headerPre ++ ("widget.tsx".data ++
      (headerMid ++ ("前端用户界面组件".data ++ headerPost))))
    (by decide) (by rfl)

/-- C3: for every file whose content contains the header marker within
its first 500 characters, `add_copyright_to_file` performs no write: the
file is untouched, a skip is reported, and False is returned. -/
theorem add_copyright_skips_marked_file
    (filepath description content : List Char) (w : Option (List Char))
    (h : has_copyright content = true) :
    add_copyright_to_file filepath description content ⟨none, w⟩ =
      ⟨false, FileEffect.untouched,
        ["⏭️  跳过 ".data ++ filepath ++ " (已有版权注释)".data]⟩ :=
  add_skip filepath description content w h

/-- Witness for C3 at the spec's scenario: a `styles.css` already
holding `@copyright` in its leading text. -/
theorem add_copyright_skips_marked_file_witness :
    add_copyright_to_file "styles.css".data "样式".data
        "/* @copyright 2026 */ body : red".data ⟨none, none⟩ =
      ⟨false, FileEffect.untouched,
        ["⏭️  跳过 ".data ++ "styles.css".data ++ " (已有版权注释)".data]⟩ := by
  exact add_copyright_skips_marked_file "styles.css".data "样式".data
    "/* @copyright 2026 */ body : red".data none (by decide)

set_option maxRecDepth 100000 in
/-- C4: the header detector returns true exactly when a marker substring
occurs within the first 500 characters of the content; a marker starting
only at position 500 does not trigger it. -/
theorem has_copyright_iff_marker_in_window :
    (∀ c : List Char, has_copyright c = true ↔
      ("@file".data <:+: c.take 500 ∨ "@copyright".data <:+: c.take 500)) ∧
    has_copyright (List.replicate 500 'x' ++ "@file".data) = false := by
  constructor
  · intro c
    simp [has_copyright, Bool.or_eq_true, containsSub_iff]
  · decide

/-- C8: the style-sheet template and the generic template are identical
strings, so rendering either produces the same output for every file
name and description. -/
theorem templates_render_identically :
    CSS_COPYRIGHT = TS_COPYRIGHT ∧
    ∀ fn d : List Char,
      pyFormat CSS_COPYRIGHT [("filename".data, fn), ("description".data, d)] =
        pyFormat TS_COPYRIGHT [("filename".data, fn), ("description".data, d)] :=
  ⟨rfl, fun _ _ => rfl⟩

/-- C9: whatever `add_copyright_to_file` writes is recognised by the
detector: the rendered header puts the marker within the first 500
characters, so a second run skips every annotated file. -/
theorem written_output_has_marker
    (filepath description content : List Char) (io' : IOBehavior)
    (nc : List Char)
    (h : (add_copyright_to_file filepath description content io').effect =
      FileEffect.written nc) :
    has_copyright nc = true := by
  cases io' with
  | mk re we =>
    cases re with
    | some e =>
        rw [add_readFail filepath description content e we] at h
        simp at h
    | none =>
      cases hc : has_copyright content with
      | true =>
          rw [add_skip filepath description content we hc] at h
          simp at h
      | false =>
        cases we with
        | some e =>
            rw [add_writeFail filepath description content e hc] at h
            simp at h
        | none =>
            rw [add_success filepath description content hc] at h
            simp only [FileEffect.written.injEq] at h
            rw [← h]
            exact has_copyright_headerPre _

set_option maxRecDepth 100000 in
/-- Witness for C9: a successful annotation of `a.ts`, whose output the
detector recognises. -/
theorem written_output_has_marker_witness :
    has_copyright (headerPre ++ ("a.ts".data ++ (headerMid ++
      ("后端API服务".data ++ (headerPost ++ "const s = 0;".data))))) = true :=
  written_output_has_marker "a.ts".data "后端API服务".data "const s = 0;".data
    ⟨none, none⟩
    (headerPre ++ ("a.ts".data ++ (headerMid ++
      ("后端API服务".data ++ (headerPost ++ "const s = 0;".data)))))
    (by rfl)

set_option maxRecDepth 100000 in
/-- C10 counterexample: a base name containing brace characters does not
make the format step raise — the braces are substituted verbatim, the
write happens and True is returned, refuting the claim's rendering
failure scenario. -/
theorem brace_filename_renders_ok :
    add_copyright_to_file "wid{get}.tsx".data "管理后台组件".data
        "let x = 1".data ⟨none, none⟩ =
      ⟨true, FileEffect.written (headerPre ++ ("wid{get}.tsx".data ++
          (headerMid ++ ("管理后台组件".data ++
            (headerPost ++ "let x = 1".data))))),
        ["✅ 已添加版权注释: ".data ++ "wid{get}.tsx".data]⟩ := by rfl

/-- C10 as amended: if an exception is raised before the file is opened
for writing — the read or the utf-8 decode fails — the file is left
completely unchanged and False is returned; template rendering itself
never fails, since the fixed templates are well-formed and field values
are substituted verbatim. -/
theorem pre_write_failure_leaves_file_untouched :
    (∀ fp d c e : List Char, ∀ w : Option (List Char),
      add_copyright_to_file fp d c ⟨some e, w⟩ =
        ⟨false, FileEffect.untouched,
          ["❌ 处理失败 ".data ++ fp ++ ": ".data ++ e]⟩) ∧
    (∀ fn d : List Char, ∃ s,
      pyFormat TS_COPYRIGHT
        [("filename".data, fn), ("description".data, d)] = Except.ok s) :=
  ⟨fun fp d c e w => add_readFail fp d c e w,
   fun fn d => ⟨_, pyFormat_TS fn d⟩⟩

/-- C5: during a `process_directory` run, files under a subtree whose
directory name is excluded are never read and never written: the walk
yields only files whose path components below the root avoid the
exclusion set, and an excluded subtree is copied to the output verbatim
with a count independent of its contents. -/
theorem excluded_subtrees_never_touched :
    (∀ (path : List (List Char)) (t : Dir), ∀ f ∈ walkDir path t,
      ∃ extra, f.1 = path ++ extra ∧
        ∀ x ∈ extra, EXCLUDED_DIRS.contains x = false) ∧
    (∀ (path : List (List Char)) (d : List Char) (exts : List (List Char))
      (io' : List (List Char) → List Char → IOBehavior)
      (cor : List (List Char) → List Char → List Char)
      (name : List Char) (sub : Dir) (rest : Subdirs),
      EXCLUDED_DIRS.contains name = true →
      procSubdirs path d exts io' cor (Subdirs.cons name sub rest) =
        (Subdirs.cons name sub (procSubdirs path d exts io' cor rest).1,
          (procSubdirs path d exts io' cor rest).2)) := by
  constructor
  · exact walkDir_path_free
  · intro path d exts io' cor name sub rest h
    rw [procSubdirs, if_pos h]

/-- Witness for C5: a concrete walk membership, and a `.git` subtree
holding an arbitrary file that processing copies verbatim. -/
theorem excluded_subtrees_never_touched_witness :
    (∃ extra, (["root".data], "a.ts".data, "x".data).1 = ["root".data] ++ extra ∧
      ∀ x ∈ extra, EXCLUDED_DIRS.contains x = false) ∧
    procSubdirs ["root".data] "描述".data [".ts".data]
        (fun _ _ => ⟨none, none⟩) (fun _ _ => [])
        (Subdirs.cons ".git".data
          (Dir.mk [("hook.ts".data, "h".data)] Subdirs.nil) Subdirs.nil) =
      (Subdirs.cons ".git".data
        (Dir.mk [("hook.ts".data, "h".data)] Subdirs.nil)
        (procSubdirs ["root".data] "描述".data [".ts".data]
          (fun _ _ => ⟨none, none⟩) (fun _ _ => []) Subdirs.nil).1,
        (procSubdirs ["root".data] "描述".data [".ts".data]
          (fun _ _ => ⟨none, none⟩) (fun _ _ => []) Subdirs.nil).2) := by
  constructor
  · exact excluded_subtrees_never_touched.1 ["root".data]
      (Dir.mk [("a.ts".data, "x".data)] Subdirs.nil)
      (["root".data], "a.ts".data, "x".data)
      (by simp [walkDir, walkSubdirs])
  · exact excluded_subtrees_never_touched.2 ["root".data] "描述".data
      [".ts".data] (fun _ _ => ⟨none, none⟩) (fun _ _ => [])
      ".git".data (Dir.mk [("hook.ts".data, "h".data)] Subdirs.nil)
      Subdirs.nil (by decide)

/-- C6: every per-file failure — read failure, encoding failure, write
failure — is caught inside `add_copyright_to_file`, reported with the
file path and the underlying error message, and makes the function
return False; a failed file does not increment the modified count and
the remaining files of the directory are still processed. -/
theorem per_file_failures_caught :
    (∀ fp d c e : List Char, ∀ w : Option (List Char),
      add_copyright_to_file fp d c ⟨some e, w⟩ =
        ⟨false, FileEffect.untouched,
          ["❌ 处理失败 ".data ++ fp ++ ": ".data ++ e]⟩) ∧
    (∀ fp d c e : List Char, has_copyright c = false →
      add_copyright_to_file fp d c ⟨none, some e⟩ =
        ⟨false, FileEffect.writeFailed,
          ["❌ 处理失败 ".data ++ fp ++ ": ".data ++ e]⟩) ∧
    (∀ (path : List (List Char)) (d : List Char) (exts : List (List Char))
      (io' : List (List Char) → List Char → IOBehavior)
      (cor : List (List Char) → List Char → List Char)
      (name content : List Char) (rest : List (List Char × List Char)),
      (add_copyright_to_file (joinPath path name) d content
        (io' path name)).returned = false →
      (procFiles path d exts io' cor ((name, content) :: rest)).2 =
        (procFiles path d exts io' cor rest).2 ∧
      ∃ c', (procFiles path d exts io' cor ((name, content) :: rest)).1 =
        (name, c') :: (procFiles path d exts io' cor rest).1) := by
  refine ⟨fun fp d c e w => add_readFail fp d c e w,
    fun fp d c e h => add_writeFail fp d c e h, ?_⟩
  intro path d exts io' cor name content rest hret
  by_cases hm : exts.any (fun e => endswith name e) = true
  · constructor
    · rw [procFiles, if_pos hm]
      simp [hret]
    · rw [procFiles, if_pos hm]
      exact ⟨_, rfl⟩
  · constructor
    · rw [procFiles, if_neg hm]
    · rw [procFiles, if_neg hm]
      exact ⟨content, rfl⟩

/-- Witness for C6: a permission error on `locked.ts`; the count stays
zero and the following file is still processed. -/
theorem per_file_failures_caught_witness :
    (add_copyright_to_file "root/locked.ts".data "描述".data "x".data
        ⟨some "Permission denied".data, none⟩ =
      ⟨false, FileEffect.untouched,
        ["❌ 处理失败 ".data ++ "root/locked.ts".data ++ ": ".data ++
          "Permission denied".data]⟩) ∧
    (add_copyright_to_file "root/full.ts".data "描述".data "y".data
        ⟨none, some "No space left on device".data⟩ =
      ⟨false, FileEffect.writeFailed,
        ["❌ 处理失败 ".data ++ "root/full.ts".data ++ ": ".data ++
          "No space left on device".data]⟩) ∧
    ((procFiles ["root".data] "描述".data [".ts".data]
        (fun _ _ => ⟨some "Permission denied".data, none⟩) (fun _ _ => [])
        (("locked.ts".data, "x".data) :: [("next.ts".data, "y".data)])).2 =
      (procFiles ["root".data] "描述".data [".ts".data]
        (fun _ _ => ⟨some "Permission denied".data, none⟩) (fun _ _ => [])
        [("next.ts".data, "y".data)]).2 ∧
      ∃ c', (procFiles ["root".data] "描述".data [".ts".data]
        (fun _ _ => ⟨some "Permission denied".data, none⟩) (fun _ _ => [])
        (("locked.ts".data, "x".data) :: [("next.ts".data, "y".data)])).1 =
        ("locked.ts".data, c') :: (procFiles ["root".data] "描述".data
          [".ts".data] (fun _ _ => ⟨some "Permission denied".data, none⟩)
          (fun _ _ => []) [("next.ts".data, "y".data)]).1) := by
  refine ⟨per_file_failures_caught.1 "root/locked.ts".data "描述".data
      "x".data "Permission denied".data none,
    per_file_failures_caught.2.1 "root/full.ts".data "描述".data "y".data
      "No space left on device".data (by decide),
    per_file_failures_caught.2.2 ["root".data] "描述".data [".ts".data]
      (fun _ _ => ⟨some "Permission denied".data, none⟩) (fun _ _ => [])
      "locked.ts".data "x".data [("next.ts".data, "y".data)] (by rfl)⟩

/-- C7: `process_directory` hands to the file processor exactly the
non-excluded walked files whose name ends with an accepted extension,
returning the count of files actually modified (skips and failures
return False and are not counted); a file whose extension is not
accepted is passed through untouched. -/
theorem process_directory_count_modified :
    (∀ (directory d : List Char) (exts : List (List Char))
      (io' : List (List Char) → List Char → IOBehavior)
      (cor : List (List Char) → List Char → List Char) (t : Dir),
      (process_directory directory d exts io' cor t).2 =
        (walkDir [directory] t).countP (fun f =>
          exts.any (fun e => endswith f.2.1 e) &&
          (add_copyright_to_file (joinPath f.1 f.2.1) d f.2.2
            (io' f.1 f.2.1)).returned)) ∧
    (∀ (path : List (List Char)) (d : List Char) (exts : List (List Char))
      (io' : List (List Char) → List Char → IOBehavior)
      (cor : List (List Char) → List Char → List Char)
      (name content : List Char) (rest : List (List Char × List Char)),
      exts.any (fun e => endswith name e) = false →
      procFiles path d exts io' cor ((name, content) :: rest) =
        ((name, content) :: (procFiles path d exts io' cor rest).1,
          (procFiles path d exts io' cor rest).2)) := by
  constructor
  · intro directory d exts io' cor t
    exact procDir_count [directory] d exts io' cor t
  · intro path d exts io' cor name content rest h
    rw [procFiles, if_neg (by rw [h]; exact Bool.false_ne_true)]

/-- Witness for C7: a `.md` file is passed through untouched by the
inner loop. -/
theorem process_directory_count_modified_witness :
    procFiles ["root".data] "描述".data [".ts".data, ".css".data]
        (fun _ _ => ⟨none, none⟩) (fun _ _ => [])
        (("README.md".data, "hello".data) :: []) =
      (("README.md".data, "hello".data) ::
        (procFiles ["root".data] "描述".data [".ts".data, ".css".data]
          (fun _ _ => ⟨none, none⟩) (fun _ _ => []) []).1,
        (procFiles ["root".data] "描述".data [".ts".data, ".css".data]
          (fun _ _ => ⟨none, none⟩) (fun _ _ => []) []).2) :=
  process_directory_count_modified.2 ["root".data] "描述".data
    [".ts".data, ".css".data] (fun _ _ => ⟨none, none⟩) (fun _ _ => [])
    "README.md".data "hello".data [] (by decide)

/-- C2: a second complete run of the annotator over the tree a first
complete run produced modifies zero files: every file either already had
the marker or was given a header the detector recognises. -/
theorem process_directory_second_run_zero
    (directory d : List Char) (exts : List (List Char))
    (io1 io2 : List (List Char) → List Char → IOBehavior)
    (cor1 cor2 : List (List Char) → List Char → List Char)
    (h1 : ∀ p n, io1 p n = ⟨none, none⟩) (h2 : ∀ p n, io2 p n = ⟨none, none⟩)
    (t : Dir) :
    (process_directory directory d exts io2 cor2
      (process_directory directory d exts io1 cor1 t).1).2 = 0 :=
  procDir_twice [directory] d exts io1 io2 cor1 cor2 h1 h2 t

/-- Witness for C2 on a small concrete tree with a marked file, an
unmarked file, a nested directory and an excluded directory. -/
theorem process_directory_second_run_zero_witness :
    (process_directory "admin/src".data "管理后台组件".data
      [".tsx".data, ".ts".data, ".css".data]
      (fun _ _ => ⟨none, none⟩) (fun _ _ => [])
      (process_directory "admin/src".data "管理后台组件".data
        [".tsx".data, ".ts".data, ".css".data]
        (fun _ _ => ⟨none, none⟩) (fun _ _ => [])
        (Dir.mk [("widget.tsx".data, "export const x = 1;".data),
                 ("old.ts".data, "// @file old.ts".data)]
          (Subdirs.cons "pages".data
            (Dir.mk [("home.css".data, "body \x7b color: red \x7d".data)]
              Subdirs.nil)
            (Subdirs.cons "node_modules".data
              (Dir.mk [("dep.ts".data, "dep".data)] Subdirs.nil)
              Subdirs.nil)))).1).2 = 0 :=
  process_directory_second_run_zero "admin/src".data "管理后台组件".data
    [".tsx".data, ".ts".data, ".css".data]
    (fun _ _ => ⟨none, none⟩) (fun _ _ => ⟨none, none⟩)
    (fun _ _ => []) (fun _ _ => [])
    (fun _ _ => rfl) (fun _ _ => rfl)
    (Dir.mk [("widget.tsx".data, "export const x = 1;".data),
             ("old.ts".data, "// @file old.ts".data)]
      (Subdirs.cons "pages".data
        (Dir.mk [("home.css".data, "body \x7b color: red \x7d".data)]
          Subdirs.nil)
        (Subdirs.cons "node_modules".data
          (Dir.mk [("dep.ts".data, "dep".data)] Subdirs.nil)
          Subdirs.nil)))
